import Mathlib

/-!
Verification of the day-table rendering pipeline of the menu-plan generator.

Python strings are embedded as `List Char`; bytes as `Nat` values below 256;
fallible operations return `Option`.  Each definition mirrors the function of
the same name in `create_table.py` (or `image_gen.py`), translated statement
by statement.
-/

namespace MenuGen

/-- ASCII whitespace stripped by Python str.strip (the inputs handled here are
ASCII-spaced menu text). -/
def isPyWhitespace (c : Char) : Bool :=
  c = ' ' || c = '\t' || c = '\n' || c = '\r' || c = '\x0b' || c = '\x0c'

/-- Python str.strip: remove leading and trailing whitespace. -/
def pyStrip (s : List Char) : List Char :=
  ((s.dropWhile isPyWhitespace).reverse.dropWhile isPyWhitespace).reverse

/-- Python str.replace worker: `p :: pt` is the (non-empty) pattern, `rep` the
replacement.  Scans left to right, replacing non-overlapping occurrences and
never rescanning replacement text, exactly as CPython does.  The fuel argument
makes the recursion structural; `pyReplace` supplies fuel equal to the string
length, which the scan can never exhaust. -/
def replaceFuel (p : Char) (pt rep : List Char) : Nat → List Char → List Char
  | _, [] => []
  | 0, s => s
  | Nat.succ fuel, c :: rest =>
    if (p == c) && pt.isPrefixOf rest then
      rep ++ replaceFuel p pt rep fuel (rest.drop pt.length)
    else
      c :: replaceFuel p pt rep fuel rest

/-- Python str.replace (every use in the source passes a non-empty pattern). -/
def pyReplace (s pat rep : List Char) : List Char :=
  match pat with
  | [] => s
  | p :: pt => replaceFuel p pt rep s.length s

/-- Single-character substitution: the shape `str.replace` takes when the
pattern is one character long (every pattern in `LATEX_SPECIAL_CHARS` is). -/
def charReplace (p : Char) (rep : List Char) : List Char → List Char
  | [] => []
  | c :: t => (if c = p then rep else [c]) ++ charReplace p rep t

/-- The LATEX_SPECIAL_CHARS dict of create_table.py, in insertion order. -/
def LATEX_SPECIAL_CHARS : List (List Char × List Char) :=
  [ (['&'], ['\\', '&']),
    (['%'], ['\\', '%']),
    (['$'], ['\\', '$']),
    (['#'], ['\\', '#']),
    (['_'], ['\\', '_']),
    (['\x7b'], ['\\', '\x7b']),
    (['\x7d'], ['\\', '\x7d']),
    (['~'], ['\\', 't', 'e', 'x', 't', 'a', 's', 'c', 'i', 'i', 't', 'i', 'l', 'd', 'e', '\x7b', '\x7d']),
    (['^'], ['\\', 't', 'e', 'x', 't', 'a', 's', 'c', 'i', 'i', 'c', 'i', 'r', 'c', 'u', 'm', '\x7b', '\x7d']),
    (['\\'], ['\\', 't', 'e', 'x', 't', 'b', 'a', 'c', 'k', 's', 'l', 'a', 's', 'h', '\x7b', '\x7d']) ]

/-- The replacement text for a backslash: `\textbackslash{}`. -/
def BSL : List Char :=
  ['\\', 't', 'e', 'x', 't', 'b', 'a', 'c', 'k', 's', 'l', 'a', 's', 'h', '\x7b', '\x7d']

/-- Function escape_latex_text: chained `str.replace` over the special-char table. -/
def escape_latex_text (text : List Char) : List Char :=
  LATEX_SPECIAL_CHARS.foldl (fun acc p => pyReplace acc p.1 p.2) text

/-- The reverse_mapping dict of unescape_latex_text, in insertion order. -/
def UNESCAPE_MAPPING : List (List Char × List Char) :=
  [ (['\\', '&'], ['&']),
    (['\\', '%'], ['%']),
    (['\\', '$'], ['$']),
    (['\\', '#'], ['#']),
    (['\\', '_'], ['_']),
    (['\\', '\x7b'], ['\x7b']),
    (['\\', '\x7d'], ['\x7d']),
    (['\\', 't', 'e', 'x', 't', 'a', 's', 'c', 'i', 'i', 't', 'i', 'l', 'd', 'e', '\x7b', '\x7d'], ['~']),
    (['\\', 't', 'e', 'x', 't', 'a', 's', 'c', 'i', 'i', 'c', 'i', 'r', 'c', 'u', 'm', '\x7b', '\x7d'], ['^']),
    (BSL, ['\\']) ]

/-- Function unescape_latex_text: chained `str.replace` over the reverse mapping. -/
def unescape_latex_text (text : List Char) : List Char :=
  UNESCAPE_MAPPING.foldl (fun acc p => pyReplace acc p.1 p.2) text

/-- The values Python treats as non-meaningful after stripping, from the
membership test in `has_content`. -/
def nonMeaningful : List (List Char) := [['-'], ['*'], [], ['n', 'a', 'n']]

/-- Function has_content: `any(item.strip() for item in items_list if item and
str(item).strip() not in [...])` with the exclusion list above. -/
def has_content (items_list : List (List Char)) : Bool :=
  (items_list.filter fun item =>
      !item.isEmpty && decide (pyStrip item ∉ nonMeaningful)).any
    fun item => !(pyStrip item).isEmpty

/-- Function is_pdf_blank: the PDF is embedded as `none` when `PdfReader` (or
text extraction) raises, otherwise as the list of per-page extracted texts. -/
def is_pdf_blank : Option (List (List Char)) → Bool
  | none => true
  | some pages =>
    if pages.length = 0 then true
    else pages.all fun page => decide ((pyStrip page).length ≤ 50)

/-- Function get_row_configurations: (item slot index, optional pikto key,
row color). -/
def get_row_configurations (is_tuesday_thursday : Bool) :
    List (Nat × Option String × String) :=
  if is_tuesday_thursday then
    [ (0, some "A", "rowCyan"), (1, none, "rowCyan"),
      (2, some "C", "rowGreen"), (3, none, "rowGreen"),
      (4, some "D", "rowRed") ]
  else
    [ (0, some "A", "rowCyan"), (1, none, "rowCyan"),
      (2, some "B", "rowYellow"),
      (3, some "C", "rowGreen"), (4, none, "rowGreen"),
      (5, some "D", "rowRed") ]

/-- Outcome of the single HTTP request made by the default (AI) branch of
`image_gen.generate_image_best`: a response with a status code, or any raised
exception (connection error, timeout, missing mapping file, failed file
write), all of which the function's `try` block absorbs. -/
inductive ImgRequestResult where
  | response (status : Nat)
  | failure
deriving DecidableEq

/-- Function generate_image_best of image_gen.py as called from
create_table.py (default branch: no Pexels, no Google): returns the output
filename on a 200 response, `None` on a non-200 status, and `None` when any
exception is raised. -/
def generate_image_best (prompt output_file : List Char) (r : ImgRequestResult) :
    Option (List Char) :=
  match r with
  | .failure => none
  | .response status =>
    let _ := prompt
    if status = 200 then some output_file else none

/-- The LaTeX cell returned by `generate_image_for_item`:
`\centering\raisebox{-0.5\height}{\includegraphics[...]{img_rel_path}}`. -/
def includegraphicsCell (img_rel_path : List Char) : List Char :=
  "\\centering\\raisebox\x7b-0.5\\height\x7d\x7b\\includegraphics[width=3.5cm,height=3.5cm,keepaspectratio]\x7b".toList
    ++ img_rel_path ++ "\x7d\x7d".toList

/-- Function generate_image_for_item: unescapes the item, calls
`ig.generate_image_best(unescaped_item, img_path)` — discarding its return
value, as the source does — and returns the `\includegraphics` cell for the
relative path unconditionally. -/
def generate_image_for_item (r : ImgRequestResult)
    (item img_path img_rel_path : List Char) : List Char :=
  let unescaped_item := unescape_latex_text item
  let _ := generate_image_best unescaped_item img_path r
  includegraphicsCell img_rel_path

/-- Padding: `items_to_show = all_items[:6] + [""] * (6 - len(all_items))`
from `_generate_day_table` (list repetition with a negative count is []). -/
def items_to_show (all_items : List (List Char)) : List (List Char) :=
  all_items.take 6 ++ List.replicate (6 - all_items.length) []

/-- One emitted table row of `_generate_day_table`'s row loop, before LaTeX
formatting: the arguments handed to `create_table_row`, plus the slot index. -/
structure TableRow where
  slot : Nat
  custom_value : String
  pikto_key : Option String
  img_cell : List Char
  item : List Char
  row_color : String
deriving DecidableEq

/-- The body of `_generate_day_table`'s row loop at enumerate index `row`:
`None` when the index is out of range or the row is skipped by the
`item_idx >= len(items_to_show)` guard (`continue`), otherwise the row built
from `items_to_show[item_idx]`, the custom value
(`custom_values[row] if row < len(custom_values) else ""`), and an image cell
only when `item and item.strip()` is truthy. -/
def row_for_config (row_configs : List (Nat × Option String × String))
    (its : List (List Char)) (custom_values : List String)
    (r : ImgRequestResult) (img_path img_rel_path : List Char)
    (row : Nat) : Option TableRow :=
  match row_configs[row]? with
  | none => none
  | some cfg =>
    if cfg.1 ≥ its.length then none
    else
      let item := its.getD cfg.1 []
      some { slot := cfg.1,
             custom_value := custom_values.getD row "",
             pikto_key := cfg.2.1,
             img_cell :=
               if !item.isEmpty && !(pyStrip item).isEmpty then
                 generate_image_for_item r item img_path img_rel_path
               else [],
             item := item,
             row_color := cfg.2.2 }

/-- The full `table_rows` list accumulated by the loop (a `for` with
`continue` is a `filterMap` over the enumeration indices). -/
def day_table_rows (row_configs : List (Nat × Option String × String))
    (all_items : List (List Char)) (custom_values : List String)
    (r : ImgRequestResult) (img_path img_rel_path : List Char) :
    List TableRow :=
  (List.range row_configs.length).filterMap
    (row_for_config row_configs (items_to_show all_items) custom_values r img_path img_rel_path)

/-- A per-day PDF as `_merge_and_cleanup_pdfs` observes it: its path, whether
the file exists on disk, and whether `is_pdf_blank` judges it blank. -/
structure PdfFile where
  path : List Char
  onDisk : Bool
  blank : Bool
deriving DecidableEq

/-- The two fixed merge targets, in loop order: `Kantine 1.pdf` then
`Kantine 2.pdf`, each paired with its partition and emitted only when the
partition is non-empty (`if part:`). -/
def merge_partitions (valid_pdfs : List PdfFile) :
    List (List PdfFile × List Char) :=
  [ (valid_pdfs.take 5, "Kantine 1.pdf".toList),
    (valid_pdfs.drop 5, "Kantine 2.pdf".toList) ].filter
    fun part => !part.1.isEmpty

/-- The externally visible effects of `_merge_and_cleanup_pdfs`. -/
structure CleanupResult where
  /-- Existing-but-blank files removed by the validity filter loop. -/
  removed_in_filter : List PdfFile
  /-- Merged documents written: (partition, fixed output name). -/
  merged : List (List PdfFile × List Char)
  /-- Per-day files removed after the merge loop. -/
  removed_after_merge : List PdfFile
  /-- Whether the tex/img/csv working directories were removed. -/
  dirs_removed : Bool
deriving DecidableEq

/-- Function merge_and_cleanup_pdfs: filter to existing non-blank files
(removing existing blank ones immediately), return early when nothing is
valid, else merge the first 5 and the remainder into the two fixed names,
remove every valid per-day file, and remove the working directories. -/
def merge_and_cleanup_pdfs (generated_pdfs : List PdfFile) : CleanupResult :=
  let valid_pdfs := generated_pdfs.filter fun p => p.onDisk && !p.blank
  let removed := generated_pdfs.filter fun p => p.onDisk && p.blank
  if valid_pdfs.isEmpty then
    { removed_in_filter := removed, merged := [],
      removed_after_merge := [], dirs_removed := false }
  else
    { removed_in_filter := removed,
      merged := merge_partitions valid_pdfs,
      removed_after_merge := valid_pdfs,
      dirs_removed := true }

/-- The file selection of `generate_tables`:
`[f for f in os.listdir(...) if f.endswith(".csv") and f.startswith("K")]`. -/
def generate_tables_csv_files (folder_listing : List (List Char)) :
    List (List Char) :=
  folder_listing.filter fun f =>
    ['.', 'c', 's', 'v'].isSuffixOf f && ['K'].isPrefixOf f

/-- One byte decoded by Python's latin-1 codec: defined for every value below
256, mapped directly to the code point of the same number. -/
def latin1_decode_byte (b : Nat) : Option Char :=
  if b < 256 then some (Char.ofNat b) else none

/-- A whole byte string decoded by latin-1 (`None` = `UnicodeDecodeError`). -/
def latin1_decode : List Nat → Option (List Char)
  | [] => some []
  | b :: rest =>
    match latin1_decode_byte b, latin1_decode rest with
    | some c, some cs => some (c :: cs)
    | _, _ => none

/-- Which decode stage of `_handle_compilation_error` produced the surfaced
diagnostic text. -/
inductive DecodeOutcome where
  | utf8 (t : List Char)
  | latin1 (t : List Char)
  | cp1252
deriving DecidableEq

/-- The decode fallback chain of `_handle_compilation_error`: try UTF-8
(embedded as an arbitrary partial decoder, `none` = `UnicodeDecodeError`),
then latin-1, then cp1252 with lossy substitution. -/
def handle_compilation_error_decode (utf8_decode : List Nat → Option (List Char))
    (output_data : List Nat) : DecodeOutcome :=
  match utf8_decode output_data with
  | some t => .utf8 t
  | none =>
    match latin1_decode output_data with
    | some t => .latin1 t
    | none => .cp1252

/-! Helper lemmas. -/

theorem pyStrip_nil : pyStrip [] = [] := rfl

theorem latin1_decode_total (bs : List Nat) (h : ∀ b ∈ bs, b < 256) :
    ∃ t, latin1_decode bs = some t := by
  induction bs with
  | nil => exact ⟨[], rfl⟩
  | cons b rest ih =>
    obtain ⟨t, ht⟩ := ih fun x hx => h x (List.mem_cons_of_mem _ hx)
    refine ⟨Char.ofNat b :: t, ?_⟩
    simp [latin1_decode, latin1_decode_byte, h b (List.mem_cons_self _ _), ht]

/-! Claim theorems. -/

/-- C3: has_content returns true iff at least one item is meaningful, where an
item is non-meaningful iff, after trimming whitespace, it equals the empty
string, a single hyphen, a single asterisk, or the exact case-sensitive token
"nan"; in particular has_content of the empty list is false, has_content of
["-", "*", "", "nan"] is false, and has_content of ["-", "Soup"] is true. -/
theorem has_content_spec :
    (∀ items_list : List (List Char),
      has_content items_list = true ↔
        ∃ item ∈ items_list, pyStrip item ∉ nonMeaningful) ∧
    has_content [] = false ∧
    has_content [['-'], ['*'], [], ['n', 'a', 'n']] = false ∧
    has_content [['-'], ['S', 'o', 'u', 'p']] = true := by
  refine ⟨fun items_list => ?_, by decide, by decide, by decide⟩
  simp only [has_content, List.any_eq_true, List.mem_filter, Bool.and_eq_true,
    decide_eq_true_eq, Bool.not_eq_true', List.isEmpty_eq_false_iff_exists_mem,
    List.isEmpty_iff]
  constructor
  · rintro ⟨item, ⟨hmem, _, hnm⟩, _⟩
    exact ⟨item, hmem, hnm⟩
  · rintro ⟨item, hmem, hnm⟩
    have hne : item ≠ [] := by
      intro h
      exact hnm (h ▸ (by decide : pyStrip [] ∈ nonMeaningful))
    have hsne : pyStrip item ≠ [] := by
      intro h
      exact hnm (h ▸ (by decide : ([] : List Char) ∈ nonMeaningful))
    exact ⟨item, ⟨hmem, List.exists_mem_of_ne_nil _ hne, hnm⟩,
      List.exists_mem_of_ne_nil _ hsne⟩

/-- C4: get_row_configurations with is_tuesday_thursday = false returns
exactly 6 row descriptors with slot indices 0..5, pikto keys A, B, C, D on
slots 0, 2, 3, 5, and row colors cyan, cyan, yellow, green, green, red in
that order; with is_tuesday_thursday = true it returns exactly 5 descriptors
with slot indices 0..4, keys A, C, D on slots 0, 2, 4, and colors cyan, cyan,
green, green, red in that order. -/
theorem get_row_configurations_spec :
    (get_row_configurations false).length = 6 ∧
    (get_row_configurations true).length = 5 ∧
    (get_row_configurations false).map (fun c => c.1) = [0, 1, 2, 3, 4, 5] ∧
    (get_row_configurations true).map (fun c => c.1) = [0, 1, 2, 3, 4] ∧
    (get_row_configurations false).filterMap
        (fun c => c.2.1.map fun k => (c.1, k)) =
      [(0, "A"), (2, "B"), (3, "C"), (5, "D")] ∧
    (get_row_configurations true).filterMap
        (fun c => c.2.1.map fun k => (c.1, k)) =
      [(0, "A"), (2, "C"), (4, "D")] ∧
    (get_row_configurations false).map (fun c => c.2.2) =
      ["rowCyan", "rowCyan", "rowYellow", "rowGreen", "rowGreen", "rowRed"] ∧
    (get_row_configurations true).map (fun c => c.2.2) =
      ["rowCyan", "rowCyan", "rowGreen", "rowGreen", "rowRed"] :=
  ⟨rfl, rfl, rfl, rfl, rfl, rfl, rfl, rfl⟩

/-- C5: is_pdf_blank returns true iff the document has zero pages or every
page's extracted text, after trimming, has length at most 50; a parsing
exception (the `none` input) also yields true; a single page with exactly 50
trimmed characters is blank and one with 51 is not. -/
theorem is_pdf_blank_spec :
    (∀ pages : List (List Char),
      is_pdf_blank (some pages) = true ↔
        ∀ page ∈ pages, (pyStrip page).length ≤ 50) ∧
    is_pdf_blank none = true ∧
    is_pdf_blank (some []) = true ∧
    is_pdf_blank (some [List.replicate 50 'a']) = true ∧
    is_pdf_blank (some [List.replicate 51 'a']) = false := by
  refine ⟨fun pages => ?_, rfl, by decide, by decide, by decide⟩
  cases pages with
  | nil => simp [is_pdf_blank]
  | cons p t => simp [is_pdf_blank, List.all_eq_true]

/-- C9: generate_tables iterates exactly those names in the input folder
listing that end in ".csv" and start with "K"; every other name is absent
from the processed list. -/
theorem generate_tables_csv_selection (folder_listing : List (List Char))
    (f : List Char) :
    f ∈ generate_tables_csv_files folder_listing ↔
      f ∈ folder_listing ∧ ['.', 'c', 's', 'v'].isSuffixOf f = true ∧
        ['K'].isPrefixOf f = true := by
  simp [generate_tables_csv_files, List.mem_filter, Bool.and_eq_true, and_assoc]

/-- C10: for every diagnostic byte string (all bytes below 256), the decode
fallback chain of _handle_compilation_error succeeds at the latin-1 stage at
the latest — latin-1 decoding is total on bytes — so the cp1252
lossy-substitution branch is unreachable. -/
theorem handle_compilation_error_no_cp1252
    (utf8_decode : List Nat → Option (List Char)) (output_data : List Nat)
    (h : ∀ b ∈ output_data, b < 256) :
    handle_compilation_error_decode utf8_decode output_data ≠
      DecodeOutcome.cp1252 := by
  unfold handle_compilation_error_decode
  cases hu : utf8_decode output_data with
  | some t => simp
  | none =>
    obtain ⟨t, ht⟩ := latin1_decode_total output_data h
    simp [ht]

/-- Witness for C10 at a concrete byte string on which UTF-8 decoding fails. -/
theorem handle_compilation_error_no_cp1252_witness :
    (∀ b ∈ ([255, 65] : List Nat), b < 256) ∧
      handle_compilation_error_decode (fun _ => none) [255, 65] ≠
        DecodeOutcome.cp1252 :=
  ⟨by decide, handle_compilation_error_no_cp1252 (fun _ => none) [255, 65] (by decide)⟩

/-- C6: merging partitions the ordered list of accepted outputs, in
processing order, into the first 5 elements and the remainder, emitting each
non-empty partition under its fixed name; with 7 accepted outputs the
partition sizes are exactly 5 and 2 and both documents are produced, and with
4 accepted outputs the second partition is empty and only one merged document
is produced. -/
theorem merge_partitions_spec (valid_pdfs : List PdfFile) :
    valid_pdfs.take 5 ++ valid_pdfs.drop 5 = valid_pdfs ∧
    (valid_pdfs.length = 7 →
      (valid_pdfs.take 5).length = 5 ∧ (valid_pdfs.drop 5).length = 2 ∧
      merge_partitions valid_pdfs =
        [(valid_pdfs.take 5, "Kantine 1.pdf".toList),
         (valid_pdfs.drop 5, "Kantine 2.pdf".toList)]) ∧
    (valid_pdfs.length = 4 →
      valid_pdfs.drop 5 = [] ∧
      merge_partitions valid_pdfs =
        [(valid_pdfs.take 5, "Kantine 1.pdf".toList)] ∧
      (merge_partitions valid_pdfs).length = 1) := by
  refine ⟨List.take_append_drop 5 valid_pdfs, fun h7 => ?_, fun h4 => ?_⟩
  · have ht : (valid_pdfs.take 5).length = 5 := by
      simp [List.length_take, h7]
    have hd : (valid_pdfs.drop 5).length = 2 := by
      simp [List.length_drop, h7]
    have et : (valid_pdfs.take 5).isEmpty = false := by
      cases h : valid_pdfs.take 5 with
      | nil => rw [h] at ht; simp at ht
      | cons a as => simp [List.isEmpty]
    have ed : (valid_pdfs.drop 5).isEmpty = false := by
      cases h : valid_pdfs.drop 5 with
      | nil => rw [h] at hd; simp at hd
      | cons a as => simp [List.isEmpty]
    exact ⟨ht, hd, by simp [merge_partitions, List.filter, et, ed]⟩
  · have hd : valid_pdfs.drop 5 = [] := List.drop_eq_nil_of_le (by omega)
    have ht : (valid_pdfs.take 5).length = 4 := by
      simp [List.length_take, h4]
    have et : (valid_pdfs.take 5).isEmpty = false := by
      cases h : valid_pdfs.take 5 with
      | nil => rw [h] at ht; simp at ht
      | cons a as => simp [List.isEmpty]
    refine ⟨hd, ?_, ?_⟩ <;> simp [merge_partitions, List.filter, et, hd]

/-- Witness for C6 at concrete accepted lists of lengths 7 and 4. -/
theorem merge_partitions_spec_witness :
    (([⟨['1'], true, false⟩, ⟨['2'], true, false⟩, ⟨['3'], true, false⟩,
       ⟨['4'], true, false⟩, ⟨['5'], true, false⟩, ⟨['6'], true, false⟩,
       ⟨['7'], true, false⟩] : List PdfFile).take 5).length = 5 ∧
    (([⟨['1'], true, false⟩, ⟨['2'], true, false⟩, ⟨['3'], true, false⟩,
       ⟨['4'], true, false⟩] : List PdfFile).drop 5 = [] ∧
      merge_partitions [⟨['1'], true, false⟩, ⟨['2'], true, false⟩,
          ⟨['3'], true, false⟩, ⟨['4'], true, false⟩] =
        [(([⟨['1'], true, false⟩, ⟨['2'], true, false⟩, ⟨['3'], true, false⟩,
            ⟨['4'], true, false⟩] : List PdfFile).take 5, "Kantine 1.pdf".toList)] ∧
      (merge_partitions [⟨['1'], true, false⟩, ⟨['2'], true, false⟩,
          ⟨['3'], true, false⟩, ⟨['4'], true, false⟩]).length = 1) :=
  ⟨((merge_partitions_spec
      [⟨['1'], true, false⟩, ⟨['2'], true, false⟩, ⟨['3'], true, false⟩,
       ⟨['4'], true, false⟩, ⟨['5'], true, false⟩, ⟨['6'], true, false⟩,
       ⟨['7'], true, false⟩]).2.1 rfl).1,
   (merge_partitions_spec
      [⟨['1'], true, false⟩, ⟨['2'], true, false⟩, ⟨['3'], true, false⟩,
       ⟨['4'], true, false⟩]).2.2 rfl⟩

/-- C7: the item list is padded or truncated to exactly 6 entries before row
composition; a row descriptor whose slot index is not below the padded item
count produces no row (the loop's continue); and when the custom left-column
list supplies no value for a requested row index the empty string is used. -/
theorem day_table_invariants (row_configs : List (Nat × Option String × String))
    (all_items : List (List Char)) (custom_values : List String)
    (r : ImgRequestResult) (img_path img_rel_path : List Char) (row : Nat)
    (cfg : Nat × Option String × String) :
    (items_to_show all_items).length = 6 ∧
    (row_configs[row]? = some cfg →
      cfg.1 ≥ (items_to_show all_items).length →
      row_for_config row_configs (items_to_show all_items) custom_values r
        img_path img_rel_path row = none) ∧
    (custom_values.length ≤ row →
      (row_for_config row_configs (items_to_show all_items) custom_values r
          img_path img_rel_path row).map TableRow.custom_value =
        (row_for_config row_configs (items_to_show all_items) custom_values r
          img_path img_rel_path row).map fun _ => "") := by
  refine ⟨?_, ?_, ?_⟩
  · simp only [items_to_show, List.length_append, List.length_take,
      List.length_replicate]
    omega
  · intro hget hge
    simp only [row_for_config, hget, ge_iff_le, if_pos hge]
  · intro hcv
    cases hget : row_configs[row]? with
    | none => simp [row_for_config, hget]
    | some c =>
      by_cases hge : (items_to_show all_items).length ≤ c.1
      · simp [row_for_config, hget, hge]
      · simp only [row_for_config, hget, ge_iff_le, if_neg hge,
          Option.map_some']
        exact congrArg some (List.getD_eq_default _ _ hcv)

/-- Witness for C7: a descriptor with slot 7 is skipped against the 6-slot
padded list, and a produced row with an exhausted custom list carries "". -/
theorem day_table_invariants_witness :
    (items_to_show ([] : List (List Char))).length = 6 ∧
    row_for_config [(7, none, "c")] (items_to_show []) []
      ImgRequestResult.failure [] [] 0 = none ∧
    (row_for_config [(0, none, "c")] (items_to_show []) []
        ImgRequestResult.failure [] [] 0).map TableRow.custom_value =
      (row_for_config [(0, none, "c")] (items_to_show []) []
        ImgRequestResult.failure [] [] 0).map fun _ => "" :=
  ⟨(day_table_invariants [(7, none, "c")] [] [] .failure [] [] 0
      (7, none, "c")).1,
   (day_table_invariants [(7, none, "c")] [] [] .failure [] [] 0
      (7, none, "c")).2.1 rfl (by decide),
   (day_table_invariants [(0, none, "c")] [] [] .failure [] [] 0
      (0, none, "c")).2.2 (by decide)⟩

/-- C8 counterexample: on a run whose accepted-output list is empty,
_merge_and_cleanup_pdfs returns before cleanup, so no working directory is
removed and no merged document is produced — refuting the claim that every
run, including one with an empty accepted list, removes all intermediate
working directories. -/
theorem merge_and_cleanup_empty_keeps_dirs :
    (merge_and_cleanup_pdfs []).dirs_removed = false ∧
      (merge_and_cleanup_pdfs []).merged = [] := by
  exact ⟨rfl, rfl⟩

/-- C8 amended: every per-day output that exists on disk is deleted by run's
end (blank ones during filtering, accepted ones after the merges), and the
intermediate working directories are removed exactly when at least one
accepted output exists — on an empty accepted list the function returns early
and the directories remain. -/
theorem merge_and_cleanup_spec (generated_pdfs : List PdfFile) :
    (∀ p ∈ generated_pdfs, p.onDisk = true →
      p ∈ (merge_and_cleanup_pdfs generated_pdfs).removed_in_filter ++
          (merge_and_cleanup_pdfs generated_pdfs).removed_after_merge) ∧
    ((merge_and_cleanup_pdfs generated_pdfs).dirs_removed = true ↔
      generated_pdfs.filter (fun p => p.onDisk && !p.blank) ≠ []) := by
  by_cases hv : (generated_pdfs.filter fun p => p.onDisk && !p.blank).isEmpty = true
  · have hnil : generated_pdfs.filter (fun p => p.onDisk && !p.blank) = [] :=
      List.isEmpty_iff.mp hv
    have hres : merge_and_cleanup_pdfs generated_pdfs =
        ⟨generated_pdfs.filter (fun p => p.onDisk && p.blank), [], [], false⟩ := by
      simp only [merge_and_cleanup_pdfs]
      rw [if_pos hv]
    constructor
    · intro p hp hd
      rw [hres]
      have hb : p.blank = true := by
        by_contra hb
        have hb' : p.blank = false := by revert hb; cases p.blank <;> simp
        have hpv : p ∈ generated_pdfs.filter (fun p => p.onDisk && !p.blank) :=
          List.mem_filter.mpr ⟨hp, by simp [hd, hb']⟩
        rw [hnil] at hpv
        exact absurd hpv (List.not_mem_nil p)
      exact List.mem_append.mpr
        (Or.inl (List.mem_filter.mpr ⟨hp, by rw [hd, hb]; rfl⟩))
    · rw [hres]
      simp [hnil]
  · have hne : generated_pdfs.filter (fun p => p.onDisk && !p.blank) ≠ [] :=
      fun h => hv (by simp [h])
    have hres : merge_and_cleanup_pdfs generated_pdfs =
        ⟨generated_pdfs.filter (fun p => p.onDisk && p.blank),
         merge_partitions (generated_pdfs.filter fun p => p.onDisk && !p.blank),
         generated_pdfs.filter (fun p => p.onDisk && !p.blank), true⟩ := by
      simp only [merge_and_cleanup_pdfs]
      rw [if_neg hv]
    constructor
    · intro p hp hd
      rw [hres]
      rw [List.mem_append, List.mem_filter, List.mem_filter]
      by_cases hb : p.blank = true
      · exact Or.inl ⟨hp, by simp [hd, hb]⟩
      · have hb' : p.blank = false := by revert hb; cases p.blank <;> simp
        exact Or.inr ⟨hp, by simp [hd, hb']⟩
    · rw [hres]
      simp [hne]

/-- Witness for C8 amended, at a one-element run whose only PDF is blank (so
it is removed during filtering and no directory is cleaned) and a one-element
run with a valid PDF (directories cleaned). -/
theorem merge_and_cleanup_spec_witness :
    (⟨['a'], true, true⟩ : PdfFile) ∈
        (merge_and_cleanup_pdfs [⟨['a'], true, true⟩]).removed_in_filter ++
          (merge_and_cleanup_pdfs [⟨['a'], true, true⟩]).removed_after_merge ∧
    ((merge_and_cleanup_pdfs [⟨['b'], true, false⟩]).dirs_removed = true ↔
      ([⟨['b'], true, false⟩] : List PdfFile).filter
        (fun p => p.onDisk && !p.blank) ≠ []) :=
  ⟨(merge_and_cleanup_spec [⟨['a'], true, true⟩]).1 _
      (List.mem_singleton.mpr rfl) rfl,
   (merge_and_cleanup_spec [⟨['b'], true, false⟩]).2⟩

/-- C2 (code evaluated at the failing input): when the illustration request
fails, generate_image_best returns None, yet generate_image_for_item ignores
that result and still returns the non-empty includegraphics reference for the
slot, so the generated document does contain an image reference for the
failed slot. -/
theorem generate_image_for_item_ignores_failure
    (item img_path img_rel_path : List Char) :
    generate_image_best (unescape_latex_text item) img_path
        ImgRequestResult.failure = none ∧
    generate_image_for_item ImgRequestResult.failure item img_path
        img_rel_path = includegraphicsCell img_rel_path ∧
    includegraphicsCell img_rel_path ≠ [] := by
  refine ⟨rfl, rfl, ?_⟩
  unfold includegraphicsCell
  intro h
  have := congrArg List.length h
  simp [List.length_append] at this

/-! Lemmas about the replace machinery, used for claim C1. -/

theorem replaceFuel_nil (p : Char) (pt rep : List Char) (fuel : Nat) :
    replaceFuel p pt rep fuel [] = [] := by
  cases fuel <;> rfl

theorem replaceFuel_single (p : Char) (rep : List Char) :
    ∀ (fuel : Nat) (s : List Char), s.length ≤ fuel →
      replaceFuel p [] rep fuel s = charReplace p rep s := by
  intro fuel
  induction fuel with
  | zero =>
    intro s hs
    have hnil : s = [] := List.length_eq_zero.mp (Nat.le_zero.mp hs)
    subst hnil; rfl
  | succ n ih =>
    intro s hs
    cases s with
    | nil => rfl
    | cons c rest =>
      have hlen : rest.length ≤ n := by
        simp only [List.length_cons] at hs; omega
      by_cases hc : c = p
      · subst hc
        simp [replaceFuel, charReplace, List.isPrefixOf, ih rest hlen]
      · simp [replaceFuel, charReplace, List.isPrefixOf, ih rest hlen, hc,
          show ¬ p = c from fun h => hc h.symm]

theorem pyReplace_single (p : Char) (rep s : List Char) :
    pyReplace s [p] rep = charReplace p rep s :=
  replaceFuel_single p rep s.length s le_rfl

theorem charReplace_of_not_mem (p : Char) (rep : List Char) :
    ∀ (s : List Char), p ∉ s → charReplace p rep s = s := by
  intro s
  induction s with
  | nil => intro _; rfl
  | cons c t ih =>
    intro h
    have hc : ¬ c = p := fun hcp => h (hcp ▸ List.mem_cons_self c t)
    simp [charReplace, hc, ih fun hp => h (List.mem_cons_of_mem _ hp)]

theorem replaceFuel_no_match (p : Char) (pt rep : List Char) :
    ∀ (fuel : Nat) (s : List Char), s.length ≤ fuel →
      (∀ k, (p :: pt).isPrefixOf (s.drop k) = false) →
      replaceFuel p pt rep fuel s = s := by
  intro fuel
  induction fuel with
  | zero =>
    intro s hs _
    have hnil : s = [] := List.length_eq_zero.mp (Nat.le_zero.mp hs)
    subst hnil; rfl
  | succ n ih =>
    intro s hs hk
    cases s with
    | nil => exact replaceFuel_nil ..
    | cons c rest =>
      have h0 := hk 0
      rw [List.drop_zero] at h0
      have h0' : ((p == c) && pt.isPrefixOf rest) = false := by
        simpa [List.isPrefixOf] using h0
      have hlen : rest.length ≤ n := by
        simp only [List.length_cons] at hs; omega
      have hrest : ∀ k, (p :: pt).isPrefixOf (rest.drop k) = false := by
        intro k
        simpa [List.drop_succ_cons] using hk (k + 1)
      simp only [replaceFuel, h0', Bool.false_eq_true, if_false]
      rw [ih rest hlen hrest]

theorem pyReplace_no_match (p : Char) (pt rep s : List Char)
    (h : ∀ k, (p :: pt).isPrefixOf (s.drop k) = false) :
    pyReplace s (p :: pt) rep = s :=
  replaceFuel_no_match p pt rep s.length s le_rfl h

theorem isPrefixOf_append_self : ∀ (l m : List Char),
    l.isPrefixOf (l ++ m) = true := by
  intro l m
  induction l with
  | nil => cases m <;> rfl
  | cons a as ih => simp [List.isPrefixOf, ih]

theorem no_match_in_backslash_escape (pt : List Char)
    (hB : ∀ (X : List Char) (k : Nat), k < 16 →
      ('\\' :: pt).isPrefixOf (BSL.drop k ++ X) = false) :
    ∀ (s : List Char) (k : Nat),
      ('\\' :: pt).isPrefixOf ((charReplace '\\' BSL s).drop k) = false := by
  intro s
  induction s with
  | nil => intro k; simp [charReplace, List.isPrefixOf]
  | cons c t ih =>
    intro k
    by_cases hc : c = '\\'
    · subst hc
      have hcr : charReplace '\\' BSL ('\\' :: t) =
          BSL ++ charReplace '\\' BSL t := by
        simp [charReplace]
      rw [hcr, List.drop_append_eq_append_drop]
      by_cases hk : k < 16
      · have h16 : k - BSL.length = 0 := by
          rw [show BSL.length = 16 from rfl]; omega
        rw [h16, List.drop_zero]
        exact hB _ k hk
      · have hdnil : BSL.drop k = [] :=
          List.drop_eq_nil_of_le (by rw [show BSL.length = 16 from rfl]; omega)
        rw [hdnil, List.nil_append]
        exact ih (k - BSL.length)
    · have hcr : charReplace '\\' BSL (c :: t) =
          c :: charReplace '\\' BSL t := by
        simp [charReplace, hc]
      rw [hcr]
      cases k with
      | zero =>
        rw [List.drop_zero]
        have hbc : ('\\' == c) = false :=
          beq_eq_false_iff_ne.mpr fun h => hc h.symm
        simp [List.isPrefixOf, hbc]
      | succ j =>
        rw [List.drop_succ_cons]
        exact ih j

theorem replaceFuel_unescape_backslash :
    ∀ (fuel : Nat) (s : List Char),
      (charReplace '\\' BSL s).length ≤ fuel →
      replaceFuel '\\'
        ['t', 'e', 'x', 't', 'b', 'a', 'c', 'k', 's', 'l', 'a', 's', 'h', '\x7b', '\x7d']
        ['\\'] fuel (charReplace '\\' BSL s) = s := by
  intro fuel
  induction fuel with
  | zero =>
    intro s hs
    cases s with
    | nil => rfl
    | cons c t =>
      exfalso
      by_cases hc : c = '\\' <;> simp [charReplace, hc, BSL] at hs
  | succ n ih =>
    intro s hs
    cases s with
    | nil => rfl
    | cons c t =>
      by_cases hc : c = '\\'
      · subst hc
        have hcr : charReplace '\\' BSL ('\\' :: t) =
            '\\' :: (['t', 'e', 'x', 't', 'b', 'a', 'c', 'k', 's', 'l', 'a', 's', 'h', '\x7b', '\x7d']
              ++ charReplace '\\' BSL t) := by
          simp [charReplace, BSL]
        have hlen : (charReplace '\\' BSL t).length ≤ n := by
          rw [hcr] at hs
          simp only [List.length_cons, List.length_append] at hs
          omega
        rw [hcr]
        have hcond : (('\\' == '\\') &&
            List.isPrefixOf
              ['t', 'e', 'x', 't', 'b', 'a', 'c', 'k', 's', 'l', 'a', 's', 'h', '\x7b', '\x7d']
              (['t', 'e', 'x', 't', 'b', 'a', 'c', 'k', 's', 'l', 'a', 's', 'h', '\x7b', '\x7d']
                ++ charReplace '\\' BSL t)) = true := by
          simp [isPrefixOf_append_self]
        simp only [replaceFuel, hcond, if_true]
        rw [List.drop_left, ih t hlen]
        rfl
      · have hcr : charReplace '\\' BSL (c :: t) =
            c :: charReplace '\\' BSL t := by
          simp [charReplace, hc]
        have hlen : (charReplace '\\' BSL t).length ≤ n := by
          rw [hcr] at hs
          simp only [List.length_cons] at hs
          omega
        rw [hcr]
        have hbc : ('\\' == c) = false :=
          beq_eq_false_iff_ne.mpr fun h => hc h.symm
        simp only [replaceFuel, hbc, Bool.false_and, Bool.false_eq_true, if_false]
        rw [ih t hlen]

theorem unescape_of_charReplace (s : List Char) :
    unescape_latex_text (charReplace '\\' BSL s) = s := by
  unfold unescape_latex_text UNESCAPE_MAPPING
  simp only [List.foldl_cons, List.foldl_nil]
  rw [pyReplace_no_match '\\' ['&'] ['&'] _
      (no_match_in_backslash_escape ['&']
        (by intro X k hk; interval_cases k <;> rfl) s),
    pyReplace_no_match '\\' ['%'] ['%'] _
      (no_match_in_backslash_escape ['%']
        (by intro X k hk; interval_cases k <;> rfl) s),
    pyReplace_no_match '\\' ['$'] ['$'] _
      (no_match_in_backslash_escape ['$']
        (by intro X k hk; interval_cases k <;> rfl) s),
    pyReplace_no_match '\\' ['#'] ['#'] _
      (no_match_in_backslash_escape ['#']
        (by intro X k hk; interval_cases k <;> rfl) s),
    pyReplace_no_match '\\' ['_'] ['_'] _
      (no_match_in_backslash_escape ['_']
        (by intro X k hk; interval_cases k <;> rfl) s),
    pyReplace_no_match '\\' ['\x7b'] ['\x7b'] _
      (no_match_in_backslash_escape ['\x7b']
        (by intro X k hk; interval_cases k <;> rfl) s),
    pyReplace_no_match '\\' ['\x7d'] ['\x7d'] _
      (no_match_in_backslash_escape ['\x7d']
        (by intro X k hk; interval_cases k <;> rfl) s),
    pyReplace_no_match '\\'
      ['t', 'e', 'x', 't', 'a', 's', 'c', 'i', 'i', 't', 'i', 'l', 'd', 'e', '\x7b', '\x7d'] ['~'] _
      (no_match_in_backslash_escape
        ['t', 'e', 'x', 't', 'a', 's', 'c', 'i', 'i', 't', 'i', 'l', 'd', 'e', '\x7b', '\x7d']
        (by intro X k hk; interval_cases k <;> rfl) s),
    pyReplace_no_match '\\'
      ['t', 'e', 'x', 't', 'a', 's', 'c', 'i', 'i', 'c', 'i', 'r', 'c', 'u', 'm', '\x7b', '\x7d'] ['^'] _
      (no_match_in_backslash_escape
        ['t', 'e', 'x', 't', 'a', 's', 'c', 'i', 'i', 'c', 'i', 'r', 'c', 'u', 'm', '\x7b', '\x7d']
        (by intro X k hk; interval_cases k <;> rfl) s)]
  exact replaceFuel_unescape_backslash _ s le_rfl

theorem escape_eq_charReplace (s : List Char)
    (h : ∀ c ∈ s,
      c ∉ (['&', '%', '$', '#', '_', '\x7b', '\x7d', '~', '^'] : List Char)) :
    escape_latex_text s = charReplace '\\' BSL s := by
  have hnm : ∀ c, c ∈ (['&', '%', '$', '#', '_', '\x7b', '\x7d', '~', '^'] : List Char) →
      c ∉ s := fun c hc hs => h c hs hc
  unfold escape_latex_text LATEX_SPECIAL_CHARS
  simp only [List.foldl_cons, List.foldl_nil]
  rw [pyReplace_single '&' ['\\', '&'] s,
    charReplace_of_not_mem '&' ['\\', '&'] s (hnm '&' (by decide)),
    pyReplace_single '%' ['\\', '%'] s,
    charReplace_of_not_mem '%' ['\\', '%'] s (hnm '%' (by decide)),
    pyReplace_single '$' ['\\', '$'] s,
    charReplace_of_not_mem '$' ['\\', '$'] s (hnm '$' (by decide)),
    pyReplace_single '#' ['\\', '#'] s,
    charReplace_of_not_mem '#' ['\\', '#'] s (hnm '#' (by decide)),
    pyReplace_single '_' ['\\', '_'] s,
    charReplace_of_not_mem '_' ['\\', '_'] s (hnm '_' (by decide)),
    pyReplace_single '\x7b' ['\\', '\x7b'] s,
    charReplace_of_not_mem '\x7b' ['\\', '\x7b'] s (hnm '\x7b' (by decide)),
    pyReplace_single '\x7d' ['\\', '\x7d'] s,
    charReplace_of_not_mem '\x7d' ['\\', '\x7d'] s (hnm '\x7d' (by decide)),
    pyReplace_single '~'
      ['\\', 't', 'e', 'x', 't', 'a', 's', 'c', 'i', 'i', 't', 'i', 'l', 'd', 'e', '\x7b', '\x7d'] s,
    charReplace_of_not_mem '~'
      ['\\', 't', 'e', 'x', 't', 'a', 's', 'c', 'i', 'i', 't', 'i', 'l', 'd', 'e', '\x7b', '\x7d'] s
      (hnm '~' (by decide)),
    pyReplace_single '^'
      ['\\', 't', 'e', 'x', 't', 'a', 's', 'c', 'i', 'i', 'c', 'i', 'r', 'c', 'u', 'm', '\x7b', '\x7d'] s,
    charReplace_of_not_mem '^'
      ['\\', 't', 'e', 'x', 't', 'a', 's', 'c', 'i', 'i', 'c', 'i', 'r', 'c', 'u', 'm', '\x7b', '\x7d'] s
      (hnm '^' (by decide)),
    pyReplace_single '\\'
      ['\\', 't', 'e', 'x', 't', 'b', 'a', 'c', 'k', 's', 'l', 'a', 's', 'h', '\x7b', '\x7d'] s]
  exact rfl

/-- C1 counterexample: on the raw input "&" — which contains no escape
sequences (unescape leaves it unchanged) — the final backslash rule
re-escapes the backslash introduced by the ampersand rule, so escaping
compounds and the round trip fails. -/
theorem escape_unescape_not_inverse_on_amp :
    unescape_latex_text ['&'] = ['&'] ∧
    escape_latex_text ['&'] = BSL ++ ['&'] ∧
    unescape_latex_text (escape_latex_text ['&']) = ['\\', '&'] ∧
    unescape_latex_text (escape_latex_text ['&']) ≠ ['&'] := by
  refine ⟨by decide, by decide, by decide, by decide⟩

/-- C1 amended: for every raw string containing none of the nine special
characters ampersand, percent, dollar, hash, underscore, braces, tilde and
caret (backslashes may occur freely), unescape_latex_text is a left inverse
of escape_latex_text; for the nine listed characters the backslash rule,
applied last, re-escapes the backslash their own rules introduce, so the
round trip fails on them (see the counterexample). -/
theorem escape_unescape_roundtrip (s : List Char)
    (h : ∀ c ∈ s,
      c ∉ (['&', '%', '$', '#', '_', '\x7b', '\x7d', '~', '^'] : List Char)) :
    unescape_latex_text (escape_latex_text s) = s := by
  rw [escape_eq_charReplace s h, unescape_of_charReplace]

/-- Witness for C1 amended at a concrete string containing a backslash. -/
theorem escape_unescape_roundtrip_witness :
    (∀ c ∈ (['S', 'u', 'p', 'p', 'e', '\\'] : List Char),
      c ∉ (['&', '%', '$', '#', '_', '\x7b', '\x7d', '~', '^'] : List Char)) ∧
    unescape_latex_text (escape_latex_text ['S', 'u', 'p', 'p', 'e', '\\']) =
      ['S', 'u', 'p', 'p', 'e', '\\'] :=
  ⟨by decide, escape_unescape_roundtrip ['S', 'u', 'p', 'p', 'e', '\\'] (by decide)⟩

end MenuGen
